import Mathlib

/-!
Shallow embedding of the Item CRUD service
(src/src/modules/item/services/item.service.ts) and of the process
configuration (src/src/config.ts).

The document store is modelled as a list of persisted items in insertion
order; the mongoose primitives the service calls (find, findOne,
findOneAndUpdate with new:true, findOneAndDelete, save) are modelled as
pure state-passing functions over that list. Each service operation
returns its result together with the post-call store state, so that a
thrown ItemNotFoundError (modelled as Except.error) still carries the
store state left behind by the store primitive.
-/

/-- Modelled from the spec: the persisted Item entity. The mongoose model
definition is not under src/; section 3 of the spec fixes its shape:
id (integer, externally assigned), name (string), price (numeric). -/
structure Item where
  id : Int
  name : String
  price : Rat
deriving DecidableEq

/-- Modelled from the spec: the transfer shape, same three fields as Item
(spec section 3). -/
structure ItemDTO where
  id : Int
  name : String
  price : Rat
deriving DecidableEq

/-- Modelled from the spec: toDTO is a pure, total, structure-preserving
projection; no field is dropped or renamed (spec section 3). -/
def toDTO (item : Item) : ItemDTO :=
  ItemDTO.mk item.id item.name item.price

/-- Modelled from the spec: the single domain error kind, carrying no
payload beyond its kind (spec section 4.2). -/
inductive DomainError where
  | itemNotFound
deriving DecidableEq

/-- The JavaScript value null, returned by delete on success
(the source signature is Promise of null). -/
inductive JSNull where
  | null
deriving DecidableEq

/-- Document store state: the persisted Item collection, in store order. -/
abbrev Store := List Item

/-- Mongoose Item.find() with no filter: every persisted document,
in store order. -/
def findAll (store : Store) : List Item :=
  store

/-- Mongoose Item.findOne with filter on id: the first document whose id
matches, if any. -/
def findOne : Store → Int → Option Item
  | [], _ => none
  | item :: rest, i => if item.id = i then some item else findOne rest i

/-- The patch applied by update: overwrite name and price of a document,
keeping its id. -/
def patchItem (item : Item) (n : String) (p : Rat) : Item :=
  Item.mk item.id n p

/-- Mongoose Item.findOneAndUpdate with filter on id, patch on name and
price, and new:true: updates the first matching document in place and
returns the updated document; no match leaves the store as is. -/
def findOneAndUpdate : Store → Int → String → Rat → Option Item × Store
  | [], _, _, _ => (none, [])
  | item :: rest, i, n, p =>
    if item.id = i then
      (some (patchItem item n p), patchItem item n p :: rest)
    else
      let r := findOneAndUpdate rest i n p
      (r.1, item :: r.2)

/-- Mongoose Item.findOneAndDelete with filter on id: removes the first
matching document and returns it; no match leaves the store as is. -/
def findOneAndDelete : Store → Int → Option Item × Store
  | [], _ => (none, [])
  | item :: rest, i =>
    if item.id = i then
      (some item, rest)
    else
      let r := findOneAndDelete rest i
      (r.1, item :: r.2)

/-- Mongoose new Item(dto): a document built from the DTO fields. -/
def itemOfDTO (dto : ItemDTO) : Item :=
  Item.mk dto.id dto.name dto.price

/-- Mongoose document.save(): inserts the document and resolves to it. -/
def save (store : Store) (item : Item) : Item × Store :=
  (item, store ++ [item])

namespace ItemService

/-- Embeds ItemService.list: Item.find().exec(), then map toDTO. -/
def list (store : Store) : List ItemDTO :=
  (findAll store).map toDTO

/-- Embeds ItemService.get: Item.findOne on id; throw ItemNotFoundError
when null, else return toDTO of the document. -/
def get (store : Store) (i : Int) : Except DomainError ItemDTO :=
  match findOne store i with
  | none => Except.error DomainError.itemNotFound
  | some item => Except.ok (toDTO item)

/-- Embeds ItemService.create: new Item(dto), save, return toDTO of the
saved document. The pair carries the service result and the post-call
store state; the body has no throw path. -/
def create (store : Store) (dto : ItemDTO) : Except DomainError ItemDTO × Store :=
  let newItem := itemOfDTO dto
  let saved := save store newItem
  (Except.ok (toDTO saved.1), saved.2)

/-- Embeds ItemService.update: findOneAndUpdate on dto.id with dto.name
and dto.price; throw ItemNotFoundError when null, else toDTO of the
updated document. -/
def update (store : Store) (dto : ItemDTO) : Except DomainError ItemDTO × Store :=
  match findOneAndUpdate store dto.id dto.name dto.price with
  | (none, s) => (Except.error DomainError.itemNotFound, s)
  | (some item, s) => (Except.ok (toDTO item), s)

/-- Embeds ItemService.delete: findOneAndDelete on id; throw
ItemNotFoundError when null, else return null. -/
def delete (store : Store) (i : Int) : Except DomainError JSNull × Store :=
  match findOneAndDelete store i with
  | (none, s) => (Except.error DomainError.itemNotFound, s)
  | (some _, s) => (Except.ok JSNull.null, s)

end ItemService

/-- Failures visible to a caller of a service operation: the domain error,
or an untranslated store failure of type ε. -/
inductive ServiceFailure (ε : Type) where
  | domain (e : DomainError)
  | store (e : ε)

/-- ItemService.list over a fallible store round-trip: the source awaits
Item.find() with no try/catch, so a store rejection propagates unchanged. -/
def listFrom {ε : Type} (r : Except ε (List Item)) :
    Except (ServiceFailure ε) (List ItemDTO) :=
  match r with
  | Except.error e => Except.error (ServiceFailure.store e)
  | Except.ok items => Except.ok (items.map toDTO)

/-- ItemService.get over a fallible store round-trip: no try/catch around
the awaited findOne, so a store rejection propagates unchanged. -/
def getFrom {ε : Type} (r : Except ε (Option Item)) :
    Except (ServiceFailure ε) ItemDTO :=
  match r with
  | Except.error e => Except.error (ServiceFailure.store e)
  | Except.ok none => Except.error (ServiceFailure.domain DomainError.itemNotFound)
  | Except.ok (some item) => Except.ok (toDTO item)

/-- ItemService.create over a fallible store round-trip: no try/catch
around the awaited save, so a store rejection (for instance a uniqueness
violation raised by the store) propagates unchanged. -/
def createFrom {ε : Type} (r : Except ε Item) :
    Except (ServiceFailure ε) ItemDTO :=
  match r with
  | Except.error e => Except.error (ServiceFailure.store e)
  | Except.ok item => Except.ok (toDTO item)

/-- ItemService.update over a fallible store round-trip: no try/catch
around the awaited findOneAndUpdate, so a store rejection propagates
unchanged. -/
def updateFrom {ε : Type} (r : Except ε (Option Item)) :
    Except (ServiceFailure ε) ItemDTO :=
  match r with
  | Except.error e => Except.error (ServiceFailure.store e)
  | Except.ok none => Except.error (ServiceFailure.domain DomainError.itemNotFound)
  | Except.ok (some item) => Except.ok (toDTO item)

/-- ItemService.delete over a fallible store round-trip: no try/catch
around the awaited findOneAndDelete, so a store rejection propagates
unchanged. -/
def deleteFrom {ε : Type} (r : Except ε (Option Item)) :
    Except (ServiceFailure ε) JSNull :=
  match r with
  | Except.error e => Except.error (ServiceFailure.store e)
  | Except.ok none => Except.error (ServiceFailure.domain DomainError.itemNotFound)
  | Except.ok (some _) => Except.ok JSNull.null

/-- The slice of the process environment read by src/config.ts: a
variable is either absent (none) or set to a string. -/
structure Env where
  PORT : Option String
  DB_CONNECTION_STRING : Option String

/-- JavaScript short-circuit or on an optional environment string: both
undefined and the empty string are falsy and select the default. -/
def jsOr (v : Option String) (deflt : String) : String :=
  match v with
  | none => deflt
  | some s => if s = "" then deflt else s

/-- ECMAScript parseInt with radix 10: skip leading whitespace, read an
optional sign, then the longest prefix of decimal digits; the result is
NaN (modelled as none) when no digit is read. -/
def parseIntJS (s : String) : Option Int :=
  let cs := s.data.dropWhile Char.isWhitespace
  let sr : Int × List Char :=
    match cs with
    | '-' :: rest => (-1, rest)
    | '+' :: rest => (1, rest)
    | rest => (1, rest)
  let ds := sr.2.takeWhile Char.isDigit
  if ds = [] then none
  else some (sr.1 * ds.foldl (fun acc c => 10 * acc + Int.ofNat (c.toNat - 48)) 0)

/-- Configuration shape from src/config.ts; the port is the parseInt
result, with none modelling NaN. -/
structure Configuration where
  port : Option Int
  dbConnectionString : String
deriving DecidableEq

/-- Embeds the configuration constant of src/config.ts as a function of
the process environment: parseInt(PORT or the string 3000, 10) and
DB_CONNECTION_STRING or the empty string. -/
def configuration (env : Env) : Configuration :=
  Configuration.mk (parseIntJS (jsOr env.PORT "3000"))
    (jsOr env.DB_CONNECTION_STRING "")

/-- Concrete document used to instantiate universally quantified results. -/
def itemA : Item :=
  Item.mk 1 "Widget" 10

/-- Concrete one-document store used to instantiate results. -/
def storeA : Store :=
  [itemA]

/-- Concrete DTO sharing the id of itemA, for duplicate-id scenarios. -/
def dtoA : ItemDTO :=
  ItemDTO.mk 1 "Gadget" 7

/-- Concrete DTO with a fresh id. -/
def dtoB : ItemDTO :=
  ItemDTO.mk 2 "Doodad" 5

/-- Concrete environment with both variables set and non-empty. -/
def envSet : Env :=
  Env.mk (some "8080") (some "mongodb://localhost/items")

/-- Concrete environment with both variables absent. -/
def envUnset : Env :=
  Env.mk none none

/-! Helper lemmas about the store primitives. -/

theorem findOne_eq_none_iff (store : Store) (i : Int) :
    findOne store i = none ↔ ∀ x ∈ store, x.id ≠ i := by
  induction store with
  | nil => simp [findOne]
  | cons a rest ih =>
    by_cases h : a.id = i
    · simp only [findOne, if_pos h, List.forall_mem_cons]
      constructor
      · intro hsome
        exact Option.noConfusion hsome
      · intro hall
        exact absurd h hall.1
    · simp only [findOne, if_neg h, List.forall_mem_cons]
      constructor
      · intro hr
        exact ⟨h, ih.mp hr⟩
      · intro hr
        exact ih.mpr hr.2

theorem findOne_mem (store : Store) (i : Int) (x : Item)
    (h : findOne store i = some x) : x ∈ store ∧ x.id = i := by
  induction store with
  | nil => exact Option.noConfusion h
  | cons a rest ih =>
    by_cases ha : a.id = i
    · simp only [findOne, if_pos ha] at h
      obtain rfl : a = x := Option.some.inj h
      exact ⟨List.mem_cons_self _ _, ha⟩
    · simp only [findOne, if_neg ha] at h
      obtain ⟨hm, hid⟩ := ih h
      exact ⟨List.mem_cons_of_mem a hm, hid⟩

theorem findOne_of_exists (store : Store) (i : Int)
    (h : ∃ x ∈ store, x.id = i) :
    ∃ x, findOne store i = some x ∧ x ∈ store ∧ x.id = i := by
  cases hf : findOne store i with
  | none =>
    obtain ⟨x, hm, hid⟩ := h
    exact absurd hid ((findOne_eq_none_iff store i).mp hf x hm)
  | some x =>
    exact ⟨x, rfl, findOne_mem store i x hf⟩

theorem findOne_append_left_none (store l : Store) (i : Int)
    (h : ∀ x ∈ store, x.id ≠ i) :
    findOne (store ++ l) i = findOne l i := by
  induction store with
  | nil => rfl
  | cons a rest ih =>
    have ha : a.id ≠ i := h a (List.mem_cons_self a rest)
    simp only [List.cons_append, findOne, if_neg ha]
    exact ih fun x hx => h x (List.mem_cons_of_mem a hx)

theorem findOneAndUpdate_fst_eq_none_iff (store : Store) (i : Int)
    (n : String) (p : Rat) :
    (findOneAndUpdate store i n p).1 = none ↔ ∀ x ∈ store, x.id ≠ i := by
  induction store with
  | nil => simp [findOneAndUpdate]
  | cons a rest ih =>
    by_cases h : a.id = i
    · simp only [findOneAndUpdate, if_pos h, List.forall_mem_cons]
      constructor
      · intro hsome
        exact Option.noConfusion hsome
      · intro hall
        exact absurd h hall.1
    · simp only [findOneAndUpdate, if_neg h, List.forall_mem_cons]
      constructor
      · intro hr
        exact ⟨h, ih.mp hr⟩
      · intro hr
        exact ih.mpr hr.2

theorem findOneAndUpdate_snd_of_none (store : Store) (i : Int)
    (n : String) (p : Rat)
    (h : (findOneAndUpdate store i n p).1 = none) :
    (findOneAndUpdate store i n p).2 = store := by
  induction store with
  | nil => rfl
  | cons a rest ih =>
    by_cases ha : a.id = i
    · simp only [findOneAndUpdate, if_pos ha] at h
      exact Option.noConfusion h
    · simp only [findOneAndUpdate, if_neg ha] at h ⊢
      rw [ih h]

theorem findOneAndUpdate_of_exists (store : Store) (i : Int)
    (n : String) (p : Rat)
    (h : ∃ x ∈ store, x.id = i) :
    ∃ pre x post, store = pre ++ x :: post ∧ x.id = i ∧
      findOneAndUpdate store i n p =
        (some (patchItem x n p), pre ++ patchItem x n p :: post) := by
  induction store with
  | nil => simp at h
  | cons a rest ih =>
    by_cases ha : a.id = i
    · refine ⟨[], a, rest, rfl, ha, ?_⟩
      simp [findOneAndUpdate, ha]
    · have hrest : ∃ x ∈ rest, x.id = i := by
        obtain ⟨x, hm, hid⟩ := h
        cases List.mem_cons.mp hm with
        | inl heq => exact absurd (heq ▸ hid) ha
        | inr hm' => exact ⟨x, hm', hid⟩
      obtain ⟨pre, x, post, hdecomp, hid, heq⟩ := ih hrest
      refine ⟨a :: pre, x, post, by rw [hdecomp, List.cons_append], hid, ?_⟩
      simp only [findOneAndUpdate, if_neg ha, heq, List.cons_append]

theorem findOneAndDelete_fst_eq_none_iff (store : Store) (i : Int) :
    (findOneAndDelete store i).1 = none ↔ ∀ x ∈ store, x.id ≠ i := by
  induction store with
  | nil => simp [findOneAndDelete]
  | cons a rest ih =>
    by_cases h : a.id = i
    · simp only [findOneAndDelete, if_pos h, List.forall_mem_cons]
      constructor
      · intro hsome
        exact Option.noConfusion hsome
      · intro hall
        exact absurd h hall.1
    · simp only [findOneAndDelete, if_neg h, List.forall_mem_cons]
      constructor
      · intro hr
        exact ⟨h, ih.mp hr⟩
      · intro hr
        exact ih.mpr hr.2

theorem findOneAndDelete_snd_of_none (store : Store) (i : Int)
    (h : (findOneAndDelete store i).1 = none) :
    (findOneAndDelete store i).2 = store := by
  induction store with
  | nil => rfl
  | cons a rest ih =>
    by_cases ha : a.id = i
    · simp only [findOneAndDelete, if_pos ha] at h
      exact Option.noConfusion h
    · simp only [findOneAndDelete, if_neg ha] at h ⊢
      rw [ih h]

theorem findOneAndDelete_of_exists (store : Store) (i : Int)
    (h : ∃ x ∈ store, x.id = i) :
    ∃ pre x post, store = pre ++ x :: post ∧ x.id = i ∧
      findOneAndDelete store i = (some x, pre ++ post) := by
  induction store with
  | nil => simp at h
  | cons a rest ih =>
    by_cases ha : a.id = i
    · refine ⟨[], a, rest, rfl, ha, ?_⟩
      simp [findOneAndDelete, ha]
    · have hrest : ∃ x ∈ rest, x.id = i := by
        obtain ⟨x, hm, hid⟩ := h
        cases List.mem_cons.mp hm with
        | inl heq => exact absurd (heq ▸ hid) ha
        | inr hm' => exact ⟨x, hm', hid⟩
      obtain ⟨pre, x, post, hdecomp, hid, heq⟩ := ih hrest
      refine ⟨a :: pre, x, post, by rw [hdecomp, List.cons_append], hid, ?_⟩
      simp only [findOneAndDelete, if_neg ha, heq, List.cons_append]

theorem no_other_id_of_nodup (store pre post : Store) (x : Item)
    (hnd : (store.map Item.id).Nodup) (hdecomp : store = pre ++ x :: post) :
    ∀ y ∈ pre ++ post, y.id ≠ x.id := by
  subst hdecomp
  rw [List.map_append, List.nodup_append] at hnd
  obtain ⟨hpre, hcons, hdisj⟩ := hnd
  intro y hy
  cases List.mem_append.mp hy with
  | inl hyp =>
    intro hcontra
    exact hdisj (hcontra ▸ List.mem_map_of_mem Item.id hyp)
      (by simp [List.map_cons])
  | inr hyp =>
    intro hcontra
    rw [List.map_cons, List.nodup_cons] at hcons
    exact hcons.1 (hcontra ▸ List.mem_map_of_mem Item.id hyp)

theorem findOneAndUpdate_no_match (store : Store) (i : Int)
    (n : String) (p : Rat) (h : ∀ x ∈ store, x.id ≠ i) :
    findOneAndUpdate store i n p = (none, store) := by
  have h1 : (findOneAndUpdate store i n p).1 = none :=
    (findOneAndUpdate_fst_eq_none_iff store i n p).mpr h
  have h2 := findOneAndUpdate_snd_of_none store i n p h1
  rw [Prod.ext_iff]
  exact ⟨h1, h2⟩

theorem findOneAndDelete_no_match (store : Store) (i : Int)
    (h : ∀ x ∈ store, x.id ≠ i) :
    findOneAndDelete store i = (none, store) := by
  have h1 : (findOneAndDelete store i).1 = none :=
    (findOneAndDelete_fst_eq_none_iff store i).mpr h
  have h2 := findOneAndDelete_snd_of_none store i h1
  rw [Prod.ext_iff]
  exact ⟨h1, h2⟩

/-! Claim theorems. -/

/-- C1: for every id, get(id) fails with ItemNotFoundError exactly when no
stored Item has that id; when such an Item exists, get(id) returns the DTO
projection (toDTO) of a stored Item carrying that id. -/
theorem get_contract (store : Store) (i : Int) :
    (ItemService.get store i = Except.error DomainError.itemNotFound ↔
      ∀ x ∈ store, x.id ≠ i) ∧
    ((∃ x ∈ store, x.id = i) →
      ∃ x, x ∈ store ∧ x.id = i ∧
        ItemService.get store i = Except.ok (toDTO x)) := by
  constructor
  · cases hf : findOne store i with
    | none =>
      simp only [ItemService.get, hf]
      exact iff_of_true trivial ((findOne_eq_none_iff store i).mp hf)
    | some x =>
      obtain ⟨hm, hid⟩ := findOne_mem store i x hf
      simp only [ItemService.get, hf]
      exact iff_of_false (fun hc => Except.noConfusion hc)
        (fun hall => absurd hid (hall x hm))
  · intro hex
    obtain ⟨x, hf, hm, hid⟩ := findOne_of_exists store i hex
    refine ⟨x, hm, hid, ?_⟩
    simp only [ItemService.get, hf]

/-- Witness for C1 at the one-document store and the stored id. -/
theorem get_contract_witness :
    ∃ x, x ∈ storeA ∧ x.id = 1 ∧
      ItemService.get storeA 1 = Except.ok (toDTO x) :=
  (get_contract storeA 1).2 ⟨itemA, by simp [storeA], rfl⟩

/-- C2: creating a DTO whose id collides with no stored Item and then
getting dto.id returns a DTO equal to dto. -/
theorem create_then_get_roundtrip (store : Store) (dto : ItemDTO)
    (hfresh : ∀ x ∈ store, x.id ≠ dto.id) :
    ItemService.get (ItemService.create store dto).2 dto.id = Except.ok dto := by
  have hstore : (ItemService.create store dto).2 = store ++ [itemOfDTO dto] := rfl
  rw [hstore]
  unfold ItemService.get
  rw [findOne_append_left_none store [itemOfDTO dto] dto.id hfresh]
  simp [findOne, itemOfDTO, toDTO]

/-- Witness for C2: create a fresh-id DTO over the one-document store. -/
theorem create_then_get_roundtrip_witness :
    ItemService.get (ItemService.create storeA dtoB).2 dtoB.id =
      Except.ok dtoB :=
  create_then_get_roundtrip storeA dtoB (by decide)

/-- C3: when an Item with dto.id is stored, update(dto) rewrites exactly
one stored document: its name and price are overwritten, its id is kept,
and every other document (the pre and post segments) is untouched. -/
theorem update_frame (store : Store) (dto : ItemDTO)
    (hex : ∃ x ∈ store, x.id = dto.id) :
    ∃ pre x post, store = pre ++ x :: post ∧ x.id = dto.id ∧
      (patchItem x dto.name dto.price).id = x.id ∧
      ItemService.update store dto =
        (Except.ok (toDTO (patchItem x dto.name dto.price)),
          pre ++ patchItem x dto.name dto.price :: post) := by
  obtain ⟨pre, x, post, hdecomp, hid, heq⟩ :=
    findOneAndUpdate_of_exists store dto.id dto.name dto.price hex
  refine ⟨pre, x, post, hdecomp, hid, rfl, ?_⟩
  unfold ItemService.update
  rw [heq]

/-- Witness for C3: update the one-document store at the stored id. -/
theorem update_frame_witness :
    ∃ pre x post, storeA = pre ++ x :: post ∧ x.id = dtoA.id ∧
      (patchItem x dtoA.name dtoA.price).id = x.id ∧
      ItemService.update storeA dtoA =
        (Except.ok (toDTO (patchItem x dtoA.name dtoA.price)),
          pre ++ patchItem x dtoA.name dtoA.price :: post) :=
  update_frame storeA dtoA ⟨itemA, by simp [storeA], rfl⟩

theorem update_eq_found (store : Store) (dto : ItemDTO) (u : Item) (s : Store)
    (h : findOneAndUpdate store dto.id dto.name dto.price = (some u, s)) :
    ItemService.update store dto = (Except.ok (toDTO u), s) := by
  unfold ItemService.update
  rw [h]

theorem update_eq_notfound (store : Store) (dto : ItemDTO) (s : Store)
    (h : findOneAndUpdate store dto.id dto.name dto.price = (none, s)) :
    ItemService.update store dto = (Except.error DomainError.itemNotFound, s) := by
  unfold ItemService.update
  rw [h]

theorem delete_eq_found (store : Store) (i : Int) (u : Item) (s : Store)
    (h : findOneAndDelete store i = (some u, s)) :
    ItemService.delete store i = (Except.ok JSNull.null, s) := by
  unfold ItemService.delete
  rw [h]

theorem delete_eq_notfound (store : Store) (i : Int) (s : Store)
    (h : findOneAndDelete store i = (none, s)) :
    ItemService.delete store i = (Except.error DomainError.itemNotFound, s) := by
  unfold ItemService.delete
  rw [h]

/-- C4: update(dto) fails with ItemNotFoundError exactly when no stored
Item has id dto.id, and the store is unchanged in that case; when such an
Item exists, update(dto) returns the DTO projection of the post-update
document (name and price from the dto, id kept). -/
theorem update_contract (store : Store) (dto : ItemDTO) :
    ((ItemService.update store dto).1 = Except.error DomainError.itemNotFound ↔
      ∀ x ∈ store, x.id ≠ dto.id) ∧
    ((∀ x ∈ store, x.id ≠ dto.id) → (ItemService.update store dto).2 = store) ∧
    ((∃ x ∈ store, x.id = dto.id) →
      ∃ x, x ∈ store ∧ x.id = dto.id ∧
        (ItemService.update store dto).1 =
          Except.ok (toDTO (patchItem x dto.name dto.price))) := by
  cases hq : findOneAndUpdate store dto.id dto.name dto.price with
  | mk o s =>
    cases o with
    | none =>
      have hupd := update_eq_notfound store dto s hq
      have h1 : (findOneAndUpdate store dto.id dto.name dto.price).1 = none := by
        rw [hq]
      have hall :=
        (findOneAndUpdate_fst_eq_none_iff store dto.id dto.name dto.price).mp h1
      have hs : s = store := by
        have h2 := findOneAndUpdate_snd_of_none store dto.id dto.name dto.price h1
        rw [hq] at h2
        exact h2
      refine ⟨iff_of_true (by rw [hupd]) hall, fun _ => by rw [hupd, hs], ?_⟩
      intro hex
      obtain ⟨x, hm, hid⟩ := hex
      exact absurd hid (hall x hm)
    | some u =>
      have hupd := update_eq_found store dto u s hq
      have hnotall : ¬ ∀ x ∈ store, x.id ≠ dto.id := by
        intro hall
        rw [findOneAndUpdate_no_match store dto.id dto.name dto.price hall] at hq
        simp at hq
      refine ⟨iff_of_false (by simp [hupd]) hnotall,
        fun hall => absurd hall hnotall, ?_⟩
      intro hex
      obtain ⟨pre, x, post, hdecomp, hid, heq⟩ :=
        findOneAndUpdate_of_exists store dto.id dto.name dto.price hex
      have hmem : x ∈ store := by
        rw [hdecomp]
        exact List.mem_append_right pre (List.mem_cons_self x post)
      rw [heq] at hq
      simp only [Prod.mk.injEq, Option.some.injEq] at hq
      refine ⟨x, hmem, hid, ?_⟩
      rw [hupd, hq.1]

/-- Witness for C4: update the one-document store at the stored id. -/
theorem update_contract_witness :
    ∃ x, x ∈ storeA ∧ x.id = dtoA.id ∧
      (ItemService.update storeA dtoA).1 =
        Except.ok (toDTO (patchItem x dtoA.name dtoA.price)) :=
  (update_contract storeA dtoA).2.2 ⟨itemA, by simp [storeA], rfl⟩

/-- C5: delete(id) fails with ItemNotFoundError exactly when no stored
Item has that id, and the store is unchanged in that case; when such an
Item exists (the data-model invariant making ids unique), delete removes
exactly that one document and a subsequent get(id) fails with
ItemNotFoundError. -/
theorem delete_contract (store : Store) (i : Int) :
    ((ItemService.delete store i).1 = Except.error DomainError.itemNotFound ↔
      ∀ x ∈ store, x.id ≠ i) ∧
    ((∀ x ∈ store, x.id ≠ i) → (ItemService.delete store i).2 = store) ∧
    ((store.map Item.id).Nodup → (∃ x ∈ store, x.id = i) →
      ∃ pre x post, store = pre ++ x :: post ∧ x.id = i ∧
        (ItemService.delete store i).1 = Except.ok JSNull.null ∧
        (ItemService.delete store i).2 = pre ++ post ∧
        ItemService.get (pre ++ post) i =
          Except.error DomainError.itemNotFound) := by
  cases hq : findOneAndDelete store i with
  | mk o s =>
    cases o with
    | none =>
      have hdel := delete_eq_notfound store i s hq
      have h1 : (findOneAndDelete store i).1 = none := by
        rw [hq]
      have hall := (findOneAndDelete_fst_eq_none_iff store i).mp h1
      have hs : s = store := by
        have h2 := findOneAndDelete_snd_of_none store i h1
        rw [hq] at h2
        exact h2
      refine ⟨iff_of_true (by rw [hdel]) hall, fun _ => by rw [hdel, hs], ?_⟩
      intro _ hex
      obtain ⟨x, hm, hid⟩ := hex
      exact absurd hid (hall x hm)
    | some u =>
      have hdel := delete_eq_found store i u s hq
      have hnotall : ¬ ∀ x ∈ store, x.id ≠ i := by
        intro hall
        rw [findOneAndDelete_no_match store i hall] at hq
        simp at hq
      refine ⟨iff_of_false (by simp [hdel]) hnotall,
        fun hall => absurd hall hnotall, ?_⟩
      intro hnd hex
      obtain ⟨pre, x, post, hdecomp, hid, heq⟩ :=
        findOneAndDelete_of_exists store i hex
      have hdel2 := delete_eq_found store i x (pre ++ post) heq
      have hother := no_other_id_of_nodup store pre post x hnd hdecomp
      have hnone : findOne (pre ++ post) i = none := by
        refine (findOne_eq_none_iff (pre ++ post) i).mpr ?_
        intro y hy
        rw [← hid]
        exact hother y hy
      refine ⟨pre, x, post, hdecomp, hid, by rw [hdel2], by rw [hdel2], ?_⟩
      unfold ItemService.get
      rw [hnone]

/-- Witness for C5: delete the only document of the one-document store. -/
theorem delete_contract_witness :
    ∃ pre x post, storeA = pre ++ x :: post ∧ x.id = 1 ∧
      (ItemService.delete storeA 1).1 = Except.ok JSNull.null ∧
      (ItemService.delete storeA 1).2 = pre ++ post ∧
      ItemService.get (pre ++ post) 1 = Except.error DomainError.itemNotFound :=
  (delete_contract storeA 1).2.2 (by decide) ⟨itemA, by simp [storeA], rfl⟩

/-- C6: list() returns the DTO projections of every stored document, one
per document, in store order; on the empty store it returns the empty
sequence, and its result type carries no domain error at all. -/
theorem list_contract (store : Store) :
    ItemService.list store = store.map toDTO ∧
    (ItemService.list store).length = store.length ∧
    ItemService.list [] = [] := by
  refine ⟨rfl, ?_, rfl⟩
  simp [ItemService.list, findAll]

/-- C7: on success (some stored Item has the requested id) delete returns
the value null, and JSNull is a unit type: it has exactly one value. -/
theorem delete_returns_null (store : Store) (i : Int)
    (hex : ∃ x ∈ store, x.id = i) :
    (ItemService.delete store i).1 = Except.ok JSNull.null ∧
    ∀ (a b : JSNull), a = b := by
  obtain ⟨pre, x, post, _, _, heq⟩ := findOneAndDelete_of_exists store i hex
  have hdel := delete_eq_found store i x (pre ++ post) heq
  refine ⟨by rw [hdel], ?_⟩
  intro a b
  cases a
  cases b
  rfl

/-- Witness for C7: delete over the one-document store succeeds with null. -/
theorem delete_returns_null_witness :
    (ItemService.delete storeA 1).1 = Except.ok JSNull.null :=
  (delete_returns_null storeA 1 ⟨itemA, by simp [storeA], rfl⟩).1

/-- C8: create performs no duplicate-id check at the service layer: for
every store it succeeds with the input DTO and appends the new document
(the list store enforces no uniqueness), in particular when a stored Item
already carries dto.id, and its result is never the domain error. -/
theorem create_no_duplicate_check (store : Store) (dto : ItemDTO) :
    ItemService.create store dto = (Except.ok dto, store ++ [itemOfDTO dto]) ∧
    (∀ e : DomainError, (ItemService.create store dto).1 ≠ Except.error e) ∧
    ((∃ x ∈ store, x.id = dto.id) →
      (ItemService.create store dto).2 = store ++ [itemOfDTO dto]) := by
  refine ⟨rfl, ?_, fun _ => rfl⟩
  intro e hc
  exact Except.noConfusion hc

/-- Witness for C8: create a DTO whose id already occurs in the store. -/
theorem create_no_duplicate_check_witness :
    (ItemService.create storeA dtoA).2 = storeA ++ [itemOfDTO dtoA] :=
  (create_no_duplicate_check storeA dtoA).2.2 ⟨itemA, by simp [storeA], rfl⟩

/-- C9: ItemNotFoundError is the only value of the domain-error type, and
over a fallible store every store failure comes out of each of the five
operations unchanged, wrapped as a store-level failure and never
translated, retried or replaced by a fallback. -/
theorem only_domain_error_and_propagation :
    (∀ e : DomainError, e = DomainError.itemNotFound) ∧
    (∀ (ε : Type) (e : ε),
      listFrom (Except.error e : Except ε (List Item)) =
        Except.error (ServiceFailure.store e) ∧
      getFrom (Except.error e : Except ε (Option Item)) =
        Except.error (ServiceFailure.store e) ∧
      createFrom (Except.error e : Except ε Item) =
        Except.error (ServiceFailure.store e) ∧
      updateFrom (Except.error e : Except ε (Option Item)) =
        Except.error (ServiceFailure.store e) ∧
      deleteFrom (Except.error e : Except ε (Option Item)) =
        Except.error (ServiceFailure.store e)) := by
  refine ⟨?_, ?_⟩
  · intro e
    cases e
    rfl
  · intro ε e
    exact ⟨rfl, rfl, rfl, rfl, rfl⟩

/-- C10: the configuration is a pure function of the process environment:
dbConnectionString is DB_CONNECTION_STRING when set and non-empty and the
empty string otherwise; port is parseInt(PORT, 10) when PORT is set and
non-empty (none models NaN for a non-numeric PORT) and 3000 otherwise. -/
theorem configuration_contract (env : Env) :
    (∀ s, env.DB_CONNECTION_STRING = some s → s ≠ "" →
      (configuration env).dbConnectionString = s) ∧
    ((env.DB_CONNECTION_STRING = none ∨ env.DB_CONNECTION_STRING = some "") →
      (configuration env).dbConnectionString = "") ∧
    (∀ s, env.PORT = some s → s ≠ "" →
      (configuration env).port = parseIntJS s) ∧
    ((env.PORT = none ∨ env.PORT = some "") →
      (configuration env).port = some 3000) ∧
    parseIntJS "number" = none := by
  refine ⟨?_, ?_, ?_, ?_, by decide⟩
  · intro s hs hne
    simp [configuration, jsOr, hs, hne]
  · intro hcase
    cases hcase with
    | inl h => simp [configuration, jsOr, h]
    | inr h => simp [configuration, jsOr, h]
  · intro s hs hne
    simp [configuration, jsOr, hs, hne]
  · intro hcase
    have hdef : (configuration env).port = parseIntJS "3000" := by
      cases hcase with
      | inl h => simp [configuration, jsOr, h]
      | inr h => simp [configuration, jsOr, h]
    rw [hdef]
    decide

/-- Witness for C10: a fully set environment and a fully unset one. -/
theorem configuration_contract_witness :
    (configuration envSet).port = parseIntJS "8080" ∧
    (configuration envSet).dbConnectionString = "mongodb://localhost/items" ∧
    (configuration envUnset).port = some 3000 ∧
    (configuration envUnset).dbConnectionString = "" :=
  ⟨(configuration_contract envSet).2.2.1 "8080" rfl (by decide),
    (configuration_contract envSet).1 "mongodb://localhost/items" rfl (by decide),
    (configuration_contract envUnset).2.2.2.1 (Or.inl rfl),
    (configuration_contract envUnset).2.1 (Or.inl rfl)⟩
